import Mathlib

/-
  Verification of the RMSProp optimizer
  (tensorflow/python/keras/optimizer_v2/rmsprop.py).

  The Python class `RMSProp` stores four scalar hyperparameters
  (learning_rate, rho, momentum, epsilon) and a boolean `centered` flag,
  creates per-parameter accumulator slots ("rms", "momentum", and "mg"
  when centered), and applies the RMSProp update to a parameter tensor,
  either densely or sparsely by row indices.  Tensor elements are
  idealized as real numbers; a dense tensor is a flat list of its
  elements and a sparse-updatable parameter is a list of rows.

  The update kernels (`training_ops.resource_apply_rms_prop` etc.), the
  base-class slot machinery (`OptimizerV2.add_slot`) and hyperparameter
  serialization (`_serialize_hyperparameter`) live outside this file's
  source; their definitions below are modelled from the spec, as marked.
-/

namespace RMSProp

/-- A hyperparameter as passed to the constructor: either a literal
Python number (an `int` or `float`, idealized as a rational), or a
dynamic value — a `Tensor` or a zero-argument callable — whose numeric
value is resolved (cast to the gradient's dtype) at each update step. -/
inductive HyperValue where
  | lit (v : ℚ)
  | dyn (f : ℕ → ℝ)

/-- Resolve a hyperparameter at step `t`, as `math_ops.cast(self._get_hyper(name), grad.dtype)`
does at the start of each apply call: a literal is a constant, a dynamic
value is re-evaluated at the current step. -/
noncomputable def resolveHyper : HyperValue → ℕ → ℝ
  | .lit v, _ => (v : ℝ)
  | .dyn f, t => f t

/-- Whether the hyperparameter was supplied as a literal number
(`isinstance(momentum, (int, float))` in the source). -/
def HyperValue.isLit : HyperValue → Bool
  | .lit _ => true
  | .dyn _ => false

/-- The state `RMSProp.__init__` stores: the four hyperparameters
(via `_set_hyper`), the derived `self._momentum` flag, and
`self._centered`. -/
structure Config where
  learning_rate : HyperValue
  rho : HyperValue
  momentum : HyperValue
  epsilon : HyperValue
  momentumFlag : Bool
  centered : Bool

/-- `RMSProp.__init__`: stores learning_rate and rho, derives the
momentum flag (`Tensor`, callable, or literal > 0), raises
`ValueError` when momentum is a literal number outside `[0, 1]`,
then stores momentum, epsilon and the centered flag. -/
def init (learning_rate rho momentum epsilon : HyperValue)
    (centered : Bool) : Except String Config :=
  let momFlag : Bool :=
    match momentum with
    | .dyn _ => true
    | .lit v => decide (0 < v)
  match momentum with
  | .lit v =>
      if v < 0 ∨ 1 < v then
        Except.error "momentum must be between [0, 1]."
      else
        Except.ok ⟨learning_rate, rho, momentum, epsilon, momFlag, centered⟩
  | .dyn _ =>
      Except.ok ⟨learning_rate, rho, momentum, epsilon, momFlag, centered⟩

/-- `RMSProp()` with every argument left at its declared default:
learning_rate=0.001, rho=0.9, momentum=0.0, epsilon=1e-10,
centered=False. -/
def initDefaults : Except String Config :=
  init (.lit 0.001) (.lit 0.9) (.lit 0) (.lit 1e-10) false

/-- The accumulator slots of one parameter: `rms` and `momentum` always,
`mg` only in centered mode.  `none` means the slot was never created. -/
structure SlotSet where
  rms : Option (List ℝ)
  momentum : Option (List ℝ)
  mg : Option (List ℝ)

/-- A parameter before any slot has been created for it. -/
def noSlots : SlotSet := ⟨none, none, none⟩

/-- Modelled from the spec: `OptimizerV2.add_slot` (base class, not in
this file's source) lazily creates the named per-parameter slot with the
parameter's shape and the stated initial value — `rms` init 1.0,
`momentum` and `mg` init 0.0 — and leaves an already-existing slot
untouched (slot creation "must be idempotent ... must not reallocate or
reset existing state"). -/
def addSlot (existing : Option (List ℝ)) (n : ℕ) (initVal : ℝ) : List ℝ :=
  existing.getD (List.replicate n initVal)

/-- `RMSProp._create_slots` for one parameter of `n` elements:
`add_slot(var, "rms")`, `add_slot(var, "momentum")`, and when centered
`add_slot(var, "mg")`. -/
def createSlots (centered : Bool) (n : ℕ) (s : SlotSet) : SlotSet :=
  { rms := some (addSlot s.rms n 1),
    momentum := some (addSlot s.momentum n 0),
    mg := if centered then some (addSlot s.mg n 0) else s.mg }

/-- The tensors a non-centered dense kernel call returns. -/
structure DenseResult where
  var : List ℝ
  rms : List ℝ
  mom : List ℝ

/-- Modelled from the spec: the `training_ops.resource_apply_rms_prop`
kernel (not in this file's source), elementwise over the parameter:
`rms ← rho * rms + (1 - rho) * grad²`,
`mom ← momentum * mom + learning_rate * grad / sqrt(rms + epsilon)`
(epsilon inside the square root), `var ← var - mom`. -/
noncomputable def applyRmsProp (lr rho momentum eps : ℝ) :
    List ℝ → List ℝ → List ℝ → List ℝ → DenseResult
  | v :: vt, r :: rt, m :: mt, g :: gt =>
      let rms1 := rho * r + (1 - rho) * g ^ 2
      let mom1 := momentum * m + lr * g / Real.sqrt (rms1 + eps)
      let rest := applyRmsProp lr rho momentum eps vt rt mt gt
      ⟨(v - mom1) :: rest.var, rms1 :: rest.rms, mom1 :: rest.mom⟩
  | _, _, _, _ => ⟨[], [], []⟩

/-- The tensors a centered dense kernel call returns. -/
structure CenteredResult where
  var : List ℝ
  mg : List ℝ
  rms : List ℝ
  mom : List ℝ

/-- Modelled from the spec: the
`training_ops.resource_apply_centered_rms_prop` kernel (not in this
file's source), elementwise over the parameter:
`mg ← rho * mg + (1 - rho) * grad`,
`rms ← rho * rms + (1 - rho) * grad²`,
`mom ← momentum * mom + learning_rate * grad / sqrt(rms - mg² + epsilon)`
(epsilon inside the square root), `var ← var - mom`. -/
noncomputable def applyCenteredRmsProp (lr rho momentum eps : ℝ) :
    List ℝ → List ℝ → List ℝ → List ℝ → List ℝ → CenteredResult
  | v :: vt, c :: ct, r :: rt, m :: mt, g :: gt =>
      let mg1 := rho * c + (1 - rho) * g
      let rms1 := rho * r + (1 - rho) * g ^ 2
      let mom1 := momentum * m + lr * g / Real.sqrt (rms1 - mg1 ^ 2 + eps)
      let rest := applyCenteredRmsProp lr rho momentum eps vt ct rt mt gt
      ⟨(v - mom1) :: rest.var, mg1 :: rest.mg, rms1 :: rest.rms,
        mom1 :: rest.mom⟩
  | _, _, _, _, _ => ⟨[], [], [], []⟩

/-- A parameter together with its accumulators, as the dense apply path
sees them (`mg` is carried along and simply untouched when the engine is
not centered). -/
structure VarState where
  var : List ℝ
  mg : List ℝ
  rms : List ℝ
  mom : List ℝ

/-- `RMSProp._resource_apply_dense`: resolve the four hyperparameters at
the current step, then dispatch on `self._centered` to the centered or
the plain RMSProp kernel. -/
noncomputable def resourceApplyDense (cfg : Config) (t : ℕ)
    (grad : List ℝ) (s : VarState) : VarState :=
  let lr := resolveHyper cfg.learning_rate t
  let rho := resolveHyper cfg.rho t
  let momentum := resolveHyper cfg.momentum t
  let eps := resolveHyper cfg.epsilon t
  if cfg.centered then
    let r := applyCenteredRmsProp lr rho momentum eps s.var s.mg s.rms s.mom grad
    ⟨r.var, r.mg, r.rms, r.mom⟩
  else
    let r := applyRmsProp lr rho momentum eps s.var s.rms s.mom grad
    ⟨r.var, s.mg, r.rms, r.mom⟩

/-- A parameter (a list of rows) together with its accumulators, as the
sparse apply path sees them. -/
structure RowState where
  var : List (List ℝ)
  mg : List (List ℝ)
  rms : List (List ℝ)
  mom : List (List ℝ)

/-- One row of a sparse kernel call: the dense formulas applied to row
`i` of `var` and of each accumulator, every other row left untouched. -/
noncomputable def sparseUpdateRow (centered : Bool) (lr rho momentum eps : ℝ)
    (s : RowState) (i : ℕ) (g : List ℝ) : RowState :=
  if centered then
    let r := applyCenteredRmsProp lr rho momentum eps (s.var.getD i [])
      (s.mg.getD i []) (s.rms.getD i []) (s.mom.getD i []) g
    ⟨s.var.set i r.var, s.mg.set i r.mg, s.rms.set i r.rms, s.mom.set i r.mom⟩
  else
    let r := applyRmsProp lr rho momentum eps (s.var.getD i [])
      (s.rms.getD i []) (s.mom.getD i []) g
    ⟨s.var.set i r.var, s.mg, s.rms.set i r.rms, s.mom.set i r.mom⟩

/-- Modelled from the spec: the `training_ops.resource_sparse_apply_rms_prop`
and `resource_sparse_apply_centered_rms_prop` kernels (not in this
file's source): the dense formulas restricted to the selected rows,
applied per occurrence in index order; all rows not listed in `indices`
are left completely untouched. -/
noncomputable def sparseApplyRows (centered : Bool) (lr rho momentum eps : ℝ) :
    RowState → List ℕ → List (List ℝ) → RowState
  | s, i :: it, g :: gt =>
      sparseApplyRows centered lr rho momentum eps
        (sparseUpdateRow centered lr rho momentum eps s i g) it gt
  | s, _, _ => s

/-- `RMSProp._resource_apply_sparse`: resolve the four hyperparameters
at the current step, then dispatch on `self._centered` to the sparse
kernel. -/
noncomputable def resourceApplySparse (cfg : Config) (t : ℕ)
    (grad : List (List ℝ)) (indices : List ℕ) (s : RowState) : RowState :=
  let lr := resolveHyper cfg.learning_rate t
  let rho := resolveHyper cfg.rho t
  let momentum := resolveHyper cfg.momentum t
  let eps := resolveHyper cfg.epsilon t
  sparseApplyRows cfg.centered lr rho momentum eps s indices grad

/-- A serialized hyperparameter: a literal value, or a descriptor of the
dynamic resolver that produced it. -/
inductive SerializedHyper where
  | value (v : ℚ)
  | descriptor (f : ℕ → ℝ)

/-- Modelled from the spec: `_serialize_hyperparameter` (base class, not
in this file's source) serializes a literal hyperparameter as its value
and a dynamic one as a descriptor of its resolver. -/
def serializeHyper : HyperValue → SerializedHyper
  | .lit v => .value v
  | .dyn f => .descriptor f

/-- Modelled from the spec: deserialization restores a serialized value
to the literal and a descriptor to the dynamic resolver it described. -/
def deserializeHyper : SerializedHyper → HyperValue
  | .value v => .lit v
  | .descriptor f => .dyn f

/-- The configuration record `RMSProp.get_config` produces: exactly the
fields `learning_rate`, `rho`, `momentum`, `epsilon` (each a literal
value or a resolver descriptor) and `centered` (a boolean). -/
structure SerializedConfig where
  learning_rate : SerializedHyper
  rho : SerializedHyper
  momentum : SerializedHyper
  epsilon : SerializedHyper
  centered : Bool

/-- `RMSProp.get_config`: serialize the four hyperparameters and record
the centered flag. -/
def getConfig (cfg : Config) : SerializedConfig :=
  ⟨serializeHyper cfg.learning_rate, serializeHyper cfg.rho,
    serializeHyper cfg.momentum, serializeHyper cfg.epsilon, cfg.centered⟩

/-- Reconstruction of an engine from a configuration record: each field
is deserialized and passed to the constructor. -/
def fromConfig (c : SerializedConfig) : Except String Config :=
  init (deserializeHyper c.learning_rate) (deserializeHyper c.rho)
    (deserializeHyper c.momentum) (deserializeHyper c.epsilon) c.centered

/-- A concrete 3-row parameter with its accumulators, used to exercise
the sparse path on small inputs. -/
noncomputable def exampleRows : RowState :=
  ⟨[[1], [2], [3]], [[0], [0], [0]], [[1], [1], [1]], [[0], [0], [0]]⟩

/-- Elementwise description of the non-centered dense kernel, with every
output written in terms of the input elements. -/
theorem applyRmsProp_elem (lr rho momentum eps : ℝ) :
    ∀ (var rms mom grad : List ℝ),
      rms.length = var.length → mom.length = var.length →
      grad.length = var.length → ∀ i, i < var.length →
      (applyRmsProp lr rho momentum eps var rms mom grad).rms.getD i 0 =
          rho * rms.getD i 0 + (1 - rho) * grad.getD i 0 ^ 2 ∧
      (applyRmsProp lr rho momentum eps var rms mom grad).mom.getD i 0 =
          momentum * mom.getD i 0 + lr * grad.getD i 0 /
            Real.sqrt (rho * rms.getD i 0 + (1 - rho) * grad.getD i 0 ^ 2 + eps) ∧
      (applyRmsProp lr rho momentum eps var rms mom grad).var.getD i 0 =
          var.getD i 0 -
            (applyRmsProp lr rho momentum eps var rms mom grad).mom.getD i 0 := by
  intro var
  induction var with
  | nil =>
      intro rms mom grad h1 h2 h3 i hi
      simp at hi
  | cons v vt ih =>
      intro rms mom grad h1 h2 h3 i hi
      cases rms with
      | nil => simp at h1
      | cons r rt =>
          cases mom with
          | nil => simp at h2
          | cons m mt =>
              cases grad with
              | nil => simp at h3
              | cons g gt =>
                  have h1' : rt.length = vt.length := by
                    simp only [List.length_cons] at h1; omega
                  have h2' : mt.length = vt.length := by
                    simp only [List.length_cons] at h2; omega
                  have h3' : gt.length = vt.length := by
                    simp only [List.length_cons] at h3; omega
                  cases i with
                  | zero => simp [applyRmsProp]
                  | succ j =>
                      have hj : j < vt.length := by
                        simp only [List.length_cons] at hi; omega
                      simpa only [applyRmsProp, List.getD_cons_succ] using
                        ih rt mt gt h1' h2' h3' j hj

/-- Elementwise description of the centered dense kernel, with every
output written in terms of the input elements. -/
theorem applyCenteredRmsProp_elem (lr rho momentum eps : ℝ) :
    ∀ (var mgl rms mom grad : List ℝ),
      mgl.length = var.length → rms.length = var.length →
      mom.length = var.length → grad.length = var.length →
      ∀ i, i < var.length →
      (applyCenteredRmsProp lr rho momentum eps var mgl rms mom grad).mg.getD i 0 =
          rho * mgl.getD i 0 + (1 - rho) * grad.getD i 0 ∧
      (applyCenteredRmsProp lr rho momentum eps var mgl rms mom grad).rms.getD i 0 =
          rho * rms.getD i 0 + (1 - rho) * grad.getD i 0 ^ 2 ∧
      (applyCenteredRmsProp lr rho momentum eps var mgl rms mom grad).mom.getD i 0 =
          momentum * mom.getD i 0 + lr * grad.getD i 0 /
            Real.sqrt (rho * rms.getD i 0 + (1 - rho) * grad.getD i 0 ^ 2 -
              (rho * mgl.getD i 0 + (1 - rho) * grad.getD i 0) ^ 2 + eps) ∧
      (applyCenteredRmsProp lr rho momentum eps var mgl rms mom grad).var.getD i 0 =
          var.getD i 0 -
            (applyCenteredRmsProp lr rho momentum eps var mgl rms mom grad).mom.getD i 0 := by
  intro var
  induction var with
  | nil =>
      intro mgl rms mom grad h0 h1 h2 h3 i hi
      simp at hi
  | cons v vt ih =>
      intro mgl rms mom grad h0 h1 h2 h3 i hi
      cases mgl with
      | nil => simp at h0
      | cons c ct =>
          cases rms with
          | nil => simp at h1
          | cons r rt =>
              cases mom with
              | nil => simp at h2
              | cons m mt =>
                  cases grad with
                  | nil => simp at h3
                  | cons g gt =>
                      have h0' : ct.length = vt.length := by
                        simp only [List.length_cons] at h0; omega
                      have h1' : rt.length = vt.length := by
                        simp only [List.length_cons] at h1; omega
                      have h2' : mt.length = vt.length := by
                        simp only [List.length_cons] at h2; omega
                      have h3' : gt.length = vt.length := by
                        simp only [List.length_cons] at h3; omega
                      cases i with
                      | zero => simp [applyCenteredRmsProp]
                      | succ j =>
                          have hj : j < vt.length := by
                            simp only [List.length_cons] at hi; omega
                          simpa only [applyCenteredRmsProp,
                            List.getD_cons_succ] using
                            ih ct rt mt gt h0' h1' h2' h3' j hj

/-- C3: immediately after `_create_slots` on a fresh parameter of `n`
elements, the `rms` accumulator exists and is all ones (not zero), the
momentum buffer exists and is all zeros, the `mg` accumulator exists
(all zeros) iff centered mode is on, and every created slot has the
parameter's `n` elements. -/
theorem createSlots_fresh_postcondition :
    ∀ (centered : Bool) (n : ℕ),
      (createSlots centered n noSlots).rms = some (List.replicate n 1) ∧
      (createSlots centered n noSlots).momentum = some (List.replicate n 0) ∧
      (createSlots centered n noSlots).mg =
        (if centered then some (List.replicate n 0) else none) ∧
      ((createSlots centered n noSlots).rms.getD []).length = n ∧
      ((createSlots centered n noSlots).momentum.getD []).length = n ∧
      ((createSlots true n noSlots).mg.getD []).length = n := by
  intro centered n
  cases centered <;> simp [createSlots, addSlot, noSlots]

/-- C6: slot creation is idempotent — a second `_create_slots` call for
the same parameter changes nothing, and a parameter whose slots are all
already set is returned with every accumulator value exactly as it
was (nothing is reallocated or reset). -/
theorem createSlots_idempotent :
    ∀ (centered : Bool) (n : ℕ) (s : SlotSet),
      createSlots centered n (createSlots centered n s) =
        createSlots centered n s ∧
      ∀ (r m g : List ℝ),
        createSlots centered n ⟨some r, some m, some g⟩ =
          ⟨some r, some m, some g⟩ := by
  intro centered n s
  constructor
  · cases centered <;> simp [createSlots, addSlot]
  · intro r m g
    cases centered <;> simp [createSlots, addSlot]

/-- C4: construction raises exactly when momentum is a literal number
outside the closed range [0, 1]: any literal momentum outside [0, 1]
fails, any momentum that is not a literal outside [0, 1] succeeds
whatever the other hyperparameters are, momentum=1.5 fails,
momentum=0.0 and momentum=1.0 succeed, and no range of learning_rate,
rho or epsilon is validated (e.g. rho=5 with epsilon=-1 is accepted). -/
theorem init_validates_only_momentum :
    (∀ (lr rho eps : HyperValue) (c : Bool) (v : ℚ),
        (v < 0 ∨ 1 < v) →
        ∃ msg, init lr rho (.lit v) eps c = Except.error msg) ∧
    (∀ (lr rho m eps : HyperValue) (c : Bool),
        (∀ v, m = HyperValue.lit v → 0 ≤ v ∧ v ≤ 1) →
        ∃ cfg, init lr rho m eps c = Except.ok cfg) ∧
    (∀ (lr rho eps : HyperValue) (c : Bool),
        ∃ msg, init lr rho (.lit 1.5) eps c = Except.error msg) ∧
    (∀ (lr rho eps : HyperValue) (c : Bool),
        ∃ cfg, init lr rho (.lit 0) eps c = Except.ok cfg) ∧
    (∀ (lr rho eps : HyperValue) (c : Bool),
        ∃ cfg, init lr rho (.lit 1) eps c = Except.ok cfg) ∧
    (∃ cfg, init (.lit 0) (.lit 5) (.lit 0) (.lit (-1)) false = Except.ok cfg) := by
  refine ⟨?_, ?_, ?_, ?_, ?_, ?_⟩
  · intro lr rho eps c v hv
    exact ⟨_, by simp only [init]; rw [if_pos hv]⟩
  · intro lr rho m eps c hm
    cases m with
    | lit v =>
        have hv := hm v rfl
        exact ⟨_, by simp only [init]; rw [if_neg (by push_neg; exact ⟨hv.1, hv.2⟩)]⟩
    | dyn f => exact ⟨_, rfl⟩
  · intro lr rho eps c
    exact ⟨_, by simp only [init]; rw [if_pos (by norm_num)]⟩
  · intro lr rho eps c
    exact ⟨_, by simp only [init]; rw [if_neg (by norm_num)]⟩
  · intro lr rho eps c
    exact ⟨_, by simp only [init]; rw [if_neg (by norm_num)]⟩
  · exact ⟨_, by simp only [init]; rw [if_neg (by norm_num)]⟩

/-- C9: every constructor argument is optional — the all-defaults
construction succeeds, with learning_rate 0.001, rho 0.9, momentum 0.0
(and the derived momentum flag off), epsilon 1e-10, centered false. -/
theorem initDefaults_ok :
    initDefaults =
      Except.ok ⟨.lit 0.001, .lit 0.9, .lit 0, .lit 1e-10, false, false⟩ := by
  rfl

/-- C1: non-centered dense update correctness — elementwise the kernel
produces rms' = rho*rms + (1-rho)*grad², mom' = momentum*mom +
learning_rate*grad/sqrt(rms' + epsilon), var' = var - mom'; and for
var=1.0, rms=1.0, mom=0.0, grad=2.0, learning_rate=0.1, rho=0.9,
momentum=0, epsilon=1e-10 it yields rms'=1.3, mom' within 1e-4 of
0.17541 and var' within 1e-4 of 0.82459. -/
theorem nonCentered_dense_update_correct :
    (∀ (lr rho momentum eps : ℝ) (var rms mom grad : List ℝ),
      rms.length = var.length → mom.length = var.length →
      grad.length = var.length → ∀ i, i < var.length →
      (applyRmsProp lr rho momentum eps var rms mom grad).rms.getD i 0 =
          rho * rms.getD i 0 + (1 - rho) * grad.getD i 0 ^ 2 ∧
      (applyRmsProp lr rho momentum eps var rms mom grad).mom.getD i 0 =
          momentum * mom.getD i 0 + lr * grad.getD i 0 /
            Real.sqrt
              ((applyRmsProp lr rho momentum eps var rms mom grad).rms.getD i 0
                + eps) ∧
      (applyRmsProp lr rho momentum eps var rms mom grad).var.getD i 0 =
          var.getD i 0 -
            (applyRmsProp lr rho momentum eps var rms mom grad).mom.getD i 0) ∧
    (applyRmsProp 0.1 0.9 0 1e-10 [1] [1] [0] [2]).rms = [1.3] ∧
    |(applyRmsProp 0.1 0.9 0 1e-10 [1] [1] [0] [2]).mom.getD 0 0 - 0.17541|
      < 1e-4 ∧
    |(applyRmsProp 0.1 0.9 0 1e-10 [1] [1] [0] [2]).var.getD 0 0 - 0.82459|
      < 1e-4 := by
  have hsq1 : (1.14 : ℝ) < Real.sqrt (1.3 + 1e-10) := by
    rw [Real.lt_sqrt (by norm_num)]; norm_num
  have hsq2 : Real.sqrt (1.3 + 1e-10) < 1.1402 := by
    rw [Real.sqrt_lt' (by norm_num)]; norm_num
  have hpos : (0 : ℝ) < Real.sqrt (1.3 + 1e-10) := lt_trans (by norm_num) hsq1
  have hub : (0.2 : ℝ) / Real.sqrt (1.3 + 1e-10) < 0.2 / 1.14 :=
    div_lt_div_of_pos_left (by norm_num) (by norm_num) hsq1
  have hlb : (0.2 : ℝ) / 1.1402 < 0.2 / Real.sqrt (1.3 + 1e-10) :=
    div_lt_div_of_pos_left (by norm_num) hpos hsq2
  have hub' : (0.2 : ℝ) / 1.14 < 0.17551 := by norm_num
  have hlb' : (0.17531 : ℝ) < 0.2 / 1.1402 := by norm_num
  have hmom : (applyRmsProp (0.1 : ℝ) 0.9 0 1e-10 [1] [1] [0] [2]).mom.getD 0 0
      = 0.2 / Real.sqrt (1.3 + 1e-10) := by
    norm_num [applyRmsProp]
  have hvar : (applyRmsProp (0.1 : ℝ) 0.9 0 1e-10 [1] [1] [0] [2]).var.getD 0 0
      = 1 - 0.2 / Real.sqrt (1.3 + 1e-10) := by
    norm_num [applyRmsProp]
  refine ⟨?_, ?_, ?_, ?_⟩
  · intro lr rho momentum eps var rms mom grad h1 h2 h3 i hi
    obtain ⟨e1, e2, e3⟩ := applyRmsProp_elem lr rho momentum eps
      var rms mom grad h1 h2 h3 i hi
    refine ⟨e1, ?_, e3⟩
    rw [e1]
    exact e2
  · norm_num [applyRmsProp]
  · rw [hmom, abs_lt]
    constructor <;> linarith
  · rw [hvar, abs_lt]
    constructor <;> linarith

/-- C2: centered dense update correctness — elementwise the kernel
produces mg' = rho*mg + (1-rho)*grad, rms' = rho*rms + (1-rho)*grad²,
mom' = momentum*mom + learning_rate*grad/sqrt(rms' - mg'² + epsilon),
var' = var - mom', and the epsilon sits inside the square root: at
lr=1, rho=0, momentum=0, eps=4, var=mg=rms=mom=0, grad=6 the kernel
gives mom' = 6/sqrt(36-36+4) = 3, not the 6/(sqrt(36-36)+4) = 1.5 that
adding epsilon to the root after taking it would give. -/
theorem centered_dense_update_correct :
    (∀ (lr rho momentum eps : ℝ) (var mgl rms mom grad : List ℝ),
      mgl.length = var.length → rms.length = var.length →
      mom.length = var.length → grad.length = var.length →
      ∀ i, i < var.length →
      (applyCenteredRmsProp lr rho momentum eps var mgl rms mom grad).mg.getD i 0
          = rho * mgl.getD i 0 + (1 - rho) * grad.getD i 0 ∧
      (applyCenteredRmsProp lr rho momentum eps var mgl rms mom grad).rms.getD i 0
          = rho * rms.getD i 0 + (1 - rho) * grad.getD i 0 ^ 2 ∧
      (applyCenteredRmsProp lr rho momentum eps var mgl rms mom grad).mom.getD i 0
          = momentum * mom.getD i 0 + lr * grad.getD i 0 /
            Real.sqrt
              ((applyCenteredRmsProp lr rho momentum eps var mgl rms mom grad).rms.getD i 0
                - (applyCenteredRmsProp lr rho momentum eps var mgl rms mom grad).mg.getD i 0 ^ 2
                + eps) ∧
      (applyCenteredRmsProp lr rho momentum eps var mgl rms mom grad).var.getD i 0
          = var.getD i 0 -
            (applyCenteredRmsProp lr rho momentum eps var mgl rms mom grad).mom.getD i 0) ∧
    (applyCenteredRmsProp 1 0 0 4 [0] [0] [0] [0] [6]).mom = [3] ∧
    (applyCenteredRmsProp 1 0 0 4 [0] [0] [0] [0] [6]).mom ≠
      [6 / (Real.sqrt (36 - 6 ^ 2) + 4)] := by
  have h4 : Real.sqrt (4 : ℝ) = 2 := by
    rw [show (4 : ℝ) = 2 ^ 2 by norm_num, Real.sqrt_sq (by norm_num)]
  have h0 : Real.sqrt (36 - 6 ^ 2 : ℝ) = 0 := by
    rw [show (36 - 6 ^ 2 : ℝ) = 0 by norm_num, Real.sqrt_zero]
  have hmom : (applyCenteredRmsProp (1 : ℝ) 0 0 4 [0] [0] [0] [0] [6]).mom = [3] := by
    have harg : (0 * 0 + (1 - 0) * 6 ^ 2 - (0 * 0 + (1 - 0) * 6) ^ 2 + 4 : ℝ)
        = 4 := by norm_num
    simp only [applyCenteredRmsProp, harg, h4]
    norm_num
  refine ⟨?_, hmom, ?_⟩
  · intro lr rho momentum eps var mgl rms mom grad h0l h1 h2 h3 i hi
    obtain ⟨e0, e1, e2, e3⟩ := applyCenteredRmsProp_elem lr rho momentum eps
      var mgl rms mom grad h0l h1 h2 h3 i hi
    refine ⟨e0, e1, ?_, e3⟩
    rw [e0, e1]
    exact e2
  · rw [hmom, h0]
    norm_num

/-- C5: sparse update frame property — a sparse update with index
sequence `indices` leaves every row of `var`, `rms`, `mom` and `mg`
whose index is not in `indices` exactly (bit-identically) as it was,
whether or not the engine is centered. -/
theorem sparse_update_frame (centered : Bool) (lr rho momentum eps : ℝ)
    (s : RowState) (indices : List ℕ) (grads : List (List ℝ)) (j : ℕ)
    (hj : j ∉ indices) :
    (sparseApplyRows centered lr rho momentum eps s indices grads).var[j]? =
      s.var[j]? ∧
    (sparseApplyRows centered lr rho momentum eps s indices grads).rms[j]? =
      s.rms[j]? ∧
    (sparseApplyRows centered lr rho momentum eps s indices grads).mom[j]? =
      s.mom[j]? ∧
    (sparseApplyRows centered lr rho momentum eps s indices grads).mg[j]? =
      s.mg[j]? := by
  revert hj
  induction indices generalizing s grads with
  | nil =>
      intro hj
      simp [sparseApplyRows]
  | cons i it ih =>
      intro hj
      rw [List.mem_cons, not_or] at hj
      obtain ⟨hji, hjit⟩ := hj
      cases grads with
      | nil => simp [sparseApplyRows]
      | cons g gt =>
          have hij : i ≠ j := fun h => hji h.symm
          have hrow :
              (sparseUpdateRow centered lr rho momentum eps s i g).var[j]? =
                s.var[j]? ∧
              (sparseUpdateRow centered lr rho momentum eps s i g).rms[j]? =
                s.rms[j]? ∧
              (sparseUpdateRow centered lr rho momentum eps s i g).mom[j]? =
                s.mom[j]? ∧
              (sparseUpdateRow centered lr rho momentum eps s i g).mg[j]? =
                s.mg[j]? := by
            cases centered <;>
              simp [sparseUpdateRow, List.getElem?_set_ne hij]
          obtain ⟨hv, hr, hm, hg⟩ := hrow
          obtain ⟨av, ar, am, ag⟩ :=
            ih (sparseUpdateRow centered lr rho momentum eps s i g) gt hjit
          simp only [sparseApplyRows]
          exact ⟨av.trans hv, ar.trans hr, am.trans hm, ag.trans hg⟩

/-- Witness for C5: a 3-row parameter updated sparsely at row 1 only
keeps rows 0 and 2 of `var`, `rms`, `mom` and `mg` unchanged. -/
theorem sparse_update_frame_witness :
    ((0 : ℕ) ∉ ([1] : List ℕ) ∧
      (sparseApplyRows false 1 1 1 1 exampleRows [1] [[5]]).var[0]? =
        exampleRows.var[0]? ∧
      (sparseApplyRows false 1 1 1 1 exampleRows [1] [[5]]).rms[0]? =
        exampleRows.rms[0]? ∧
      (sparseApplyRows false 1 1 1 1 exampleRows [1] [[5]]).mom[0]? =
        exampleRows.mom[0]? ∧
      (sparseApplyRows false 1 1 1 1 exampleRows [1] [[5]]).mg[0]? =
        exampleRows.mg[0]?) ∧
    ((2 : ℕ) ∉ ([1] : List ℕ) ∧
      (sparseApplyRows false 1 1 1 1 exampleRows [1] [[5]]).var[2]? =
        exampleRows.var[2]? ∧
      (sparseApplyRows false 1 1 1 1 exampleRows [1] [[5]]).rms[2]? =
        exampleRows.rms[2]? ∧
      (sparseApplyRows false 1 1 1 1 exampleRows [1] [[5]]).mom[2]? =
        exampleRows.mom[2]? ∧
      (sparseApplyRows false 1 1 1 1 exampleRows [1] [[5]]).mg[2]? =
        exampleRows.mg[2]?) :=
  ⟨⟨by decide,
    sparse_update_frame false 1 1 1 1 exampleRows [1] [[5]] 0 (by decide)⟩,
   ⟨by decide,
    sparse_update_frame false 1 1 1 1 exampleRows [1] [[5]] 2 (by decide)⟩⟩

/-- C7: configuration round-trip — for any successfully constructed
engine, `get_config` yields the record with exactly the fields
learning_rate, rho, momentum, epsilon (each a literal value or a
resolver descriptor) and centered; reconstructing an engine from that
record succeeds, reproduces the stored state exactly, and any engine so
reconstructed applies dense and sparse updates identical to the
original's on every input. -/
theorem getConfig_roundtrip (lr rho m eps : HyperValue) (c : Bool)
    (cfg : Config) (h : init lr rho m eps c = Except.ok cfg) :
    getConfig cfg = ⟨serializeHyper cfg.learning_rate, serializeHyper cfg.rho,
      serializeHyper cfg.momentum, serializeHyper cfg.epsilon, cfg.centered⟩ ∧
    fromConfig (getConfig cfg) = Except.ok cfg ∧
    ∀ cfg2, fromConfig (getConfig cfg) = Except.ok cfg2 →
      (∀ (t : ℕ) (grad : List ℝ) (s : VarState),
        resourceApplyDense cfg2 t grad s = resourceApplyDense cfg t grad s) ∧
      (∀ (t : ℕ) (grad : List (List ℝ)) (indices : List ℕ) (s : RowState),
        resourceApplySparse cfg2 t grad indices s =
          resourceApplySparse cfg t grad indices s) := by
  have hds : ∀ x : HyperValue, deserializeHyper (serializeHyper x) = x := by
    intro x
    cases x <;> rfl
  have hfc : fromConfig (getConfig cfg) =
      init cfg.learning_rate cfg.rho cfg.momentum cfg.epsilon cfg.centered := by
    simp [fromConfig, getConfig, hds]
  have hre : init cfg.learning_rate cfg.rho cfg.momentum cfg.epsilon
      cfg.centered = Except.ok cfg := by
    cases m with
    | lit v =>
        simp only [init] at h
        split at h
        · exact absurd h (by simp)
        · injection h with h2
          subst h2
          simp only [init]
          split
          · next hcontra => exact absurd hcontra (by assumption)
          · rfl
    | dyn f =>
        simp only [init] at h
        injection h with h2
        subst h2
        simp only [init]
  refine ⟨rfl, hfc.trans hre, ?_⟩
  intro cfg2 h2
  rw [hfc.trans hre] at h2
  injection h2 with h3
  subst h3
  exact ⟨fun t grad s => rfl, fun t grad indices s => rfl⟩

/-- Witness for C7: the round-trip at the default literal
hyperparameters. -/
theorem getConfig_roundtrip_witness :
    getConfig ⟨.lit 0.001, .lit 0.9, .lit 0, .lit 1e-10, false, false⟩ =
      ⟨serializeHyper (.lit 0.001), serializeHyper (.lit 0.9),
        serializeHyper (.lit 0), serializeHyper (.lit 1e-10), false⟩ ∧
    fromConfig (getConfig ⟨.lit 0.001, .lit 0.9, .lit 0, .lit 1e-10,
        false, false⟩) =
      Except.ok ⟨.lit 0.001, .lit 0.9, .lit 0, .lit 1e-10, false, false⟩ ∧
    ∀ cfg2, fromConfig (getConfig ⟨.lit 0.001, .lit 0.9, .lit 0,
        .lit 1e-10, false, false⟩) = Except.ok cfg2 →
      (∀ (t : ℕ) (grad : List ℝ) (s : VarState),
        resourceApplyDense cfg2 t grad s =
          resourceApplyDense ⟨.lit 0.001, .lit 0.9, .lit 0, .lit 1e-10,
            false, false⟩ t grad s) ∧
      (∀ (t : ℕ) (grad : List (List ℝ)) (indices : List ℕ) (s : RowState),
        resourceApplySparse cfg2 t grad indices s =
          resourceApplySparse ⟨.lit 0.001, .lit 0.9, .lit 0, .lit 1e-10,
            false, false⟩ t grad indices s) :=
  getConfig_roundtrip (.lit 0.001) (.lit 0.9) (.lit 0) (.lit 1e-10) false
    ⟨.lit 0.001, .lit 0.9, .lit 0, .lit 1e-10, false, false⟩ rfl

/-- C8: momentum accumulation — with momentum 0.9, a constant positive
gradient and a momentum buffer starting at zero (learning rate and
epsilon positive, rho in [0, 1], a nonnegative initial rms), the second
dense step's momentum equals 0.9 times the first step's momentum plus
the second step's learning_rate*grad/sqrt(rms+epsilon) term, and is
strictly larger in absolute value than the first step's momentum. -/
theorem momentum_accumulates (lr rho eps g var0 rms0 : ℝ)
    (hlr : 0 < lr) (hrho0 : 0 ≤ rho) (hrho1 : rho ≤ 1)
    (hrms : 0 ≤ rms0) (heps : 0 < eps) (hg : 0 < g) :
    (applyRmsProp lr rho 0.9 eps
        (applyRmsProp lr rho 0.9 eps [var0] [rms0] [0] [g]).var
        (applyRmsProp lr rho 0.9 eps [var0] [rms0] [0] [g]).rms
        (applyRmsProp lr rho 0.9 eps [var0] [rms0] [0] [g]).mom
        [g]).mom.getD 0 0 =
      0.9 * (applyRmsProp lr rho 0.9 eps [var0] [rms0] [0] [g]).mom.getD 0 0 +
        lr * g / Real.sqrt
          ((applyRmsProp lr rho 0.9 eps
              (applyRmsProp lr rho 0.9 eps [var0] [rms0] [0] [g]).var
              (applyRmsProp lr rho 0.9 eps [var0] [rms0] [0] [g]).rms
              (applyRmsProp lr rho 0.9 eps [var0] [rms0] [0] [g]).mom
              [g]).rms.getD 0 0 + eps) ∧
    |(applyRmsProp lr rho 0.9 eps [var0] [rms0] [0] [g]).mom.getD 0 0| <
      |(applyRmsProp lr rho 0.9 eps
          (applyRmsProp lr rho 0.9 eps [var0] [rms0] [0] [g]).var
          (applyRmsProp lr rho 0.9 eps [var0] [rms0] [0] [g]).rms
          (applyRmsProp lr rho 0.9 eps [var0] [rms0] [0] [g]).mom
          [g]).mom.getD 0 0| := by
  have hstep : ∀ (v r m : ℝ), applyRmsProp lr rho 0.9 eps [v] [r] [m] [g] =
      ⟨[v - (0.9 * m + lr * g /
          Real.sqrt (rho * r + (1 - rho) * g ^ 2 + eps))],
        [rho * r + (1 - rho) * g ^ 2],
        [0.9 * m + lr * g /
          Real.sqrt (rho * r + (1 - rho) * g ^ 2 + eps)]⟩ := by
    intro v r m
    simp [applyRmsProp]
  rw [hstep]
  dsimp only
  rw [hstep]
  dsimp only [List.getD_cons_zero]
  set R1 : ℝ := rho * rms0 + (1 - rho) * g ^ 2 with hR1def
  set M1 : ℝ := 0.9 * 0 + lr * g / Real.sqrt (R1 + eps) with hM1def
  set R2 : ℝ := rho * R1 + (1 - rho) * g ^ 2 with hR2def
  refine ⟨rfl, ?_⟩
  have hR1nn : 0 ≤ R1 := by
    have h1 := mul_nonneg hrho0 hrms
    have h2 := mul_nonneg (sub_nonneg.mpr hrho1) (sq_nonneg g)
    rw [hR1def]
    linarith
  have hA1pos : 0 < R1 + eps := by linarith
  have hR2le : R2 ≤ 2 * R1 := by
    have h1 := mul_nonneg (sub_nonneg.mpr hrho1) hR1nn
    have h2 : (1 - rho) * g ^ 2 ≤ R1 := by
      have := mul_nonneg hrho0 hrms
      rw [hR1def]
      linarith
    rw [hR2def]
    nlinarith
  have hA2pos : 0 < R2 + eps := by
    have h1 := mul_nonneg hrho0 hR1nn
    have h2 := mul_nonneg (sub_nonneg.mpr hrho1) (sq_nonneg g)
    rw [hR2def]
    linarith
  have hsA1pos : 0 < Real.sqrt (R1 + eps) := Real.sqrt_pos.mpr hA1pos
  have hsA2pos : 0 < Real.sqrt (R2 + eps) := Real.sqrt_pos.mpr hA2pos
  have hs2lt : Real.sqrt (R2 + eps) < 10 * Real.sqrt (R1 + eps) := by
    have h100 : R2 + eps < 100 * (R1 + eps) := by linarith
    calc Real.sqrt (R2 + eps) < Real.sqrt (100 * (R1 + eps)) :=
          Real.sqrt_lt_sqrt (le_of_lt hA2pos) h100
      _ = 10 * Real.sqrt (R1 + eps) := by
          rw [show (100 : ℝ) * (R1 + eps) = 10 ^ 2 * (R1 + eps) by norm_num,
            Real.sqrt_mul (by norm_num) (R1 + eps),
            Real.sqrt_sq (by norm_num)]
  have hM1pos : 0 < M1 := by
    rw [hM1def]
    have := div_pos (mul_pos hlr hg) hsA1pos
    linarith
  have ht2 : lr * g / (10 * Real.sqrt (R1 + eps)) <
      lr * g / Real.sqrt (R2 + eps) :=
    div_lt_div_of_pos_left (mul_pos hlr hg) hsA2pos hs2lt
  have hfrac : lr * g / (10 * Real.sqrt (R1 + eps)) =
      0.1 * (lr * g / Real.sqrt (R1 + eps)) := by
    field_simp
    ring
  have hkey : M1 < 0.9 * M1 + lr * g / Real.sqrt (R2 + eps) := by
    rw [hM1def]
    rw [hfrac] at ht2
    linarith
  have hM2pos : 0 < 0.9 * M1 + lr * g / Real.sqrt (R2 + eps) := by
    have h1 := div_pos (mul_pos hlr hg) hsA2pos
    have h2 : (0 : ℝ) < 0.9 * M1 := mul_pos (by norm_num) hM1pos
    linarith
  rw [abs_of_pos hM1pos, abs_of_pos hM2pos]
  exact hkey

/-- Witness for C8: the momentum accumulation at lr=0.1, rho=0.9,
eps=1, grad=2, var=1, rms=1. -/
theorem momentum_accumulates_witness :
    (applyRmsProp 0.1 0.9 0.9 1
        (applyRmsProp 0.1 0.9 0.9 1 [1] [1] [0] [2]).var
        (applyRmsProp 0.1 0.9 0.9 1 [1] [1] [0] [2]).rms
        (applyRmsProp 0.1 0.9 0.9 1 [1] [1] [0] [2]).mom
        [2]).mom.getD 0 0 =
      0.9 * (applyRmsProp 0.1 0.9 0.9 1 [1] [1] [0] [2]).mom.getD 0 0 +
        0.1 * 2 / Real.sqrt
          ((applyRmsProp 0.1 0.9 0.9 1
              (applyRmsProp 0.1 0.9 0.9 1 [1] [1] [0] [2]).var
              (applyRmsProp 0.1 0.9 0.9 1 [1] [1] [0] [2]).rms
              (applyRmsProp 0.1 0.9 0.9 1 [1] [1] [0] [2]).mom
              [2]).rms.getD 0 0 + 1) ∧
    |(applyRmsProp 0.1 0.9 0.9 1 [1] [1] [0] [2]).mom.getD 0 0| <
      |(applyRmsProp 0.1 0.9 0.9 1
          (applyRmsProp 0.1 0.9 0.9 1 [1] [1] [0] [2]).var
          (applyRmsProp 0.1 0.9 0.9 1 [1] [1] [0] [2]).rms
          (applyRmsProp 0.1 0.9 0.9 1 [1] [1] [0] [2]).mom
          [2]).mom.getD 0 0| :=
  momentum_accumulates 0.1 0.9 1 2 1 1 (by norm_num) (by norm_num)
    (by norm_num) (by norm_num) (by norm_num) (by norm_num)

/-- C10: determinism — when every stored hyperparameter is a literal,
a dense or sparse update is a pure function of the declared inputs
(parameter, accumulators, gradient, indices) and the stored
hyperparameters: its result does not depend on the resolution context
(the step at which the hyperparameters are resolved), so two runs from
identical inputs produce identical parameter and accumulator state. -/
theorem literal_hypers_deterministic (cfg : Config)
    (h1 : cfg.learning_rate.isLit = true) (h2 : cfg.rho.isLit = true)
    (h3 : cfg.momentum.isLit = true) (h4 : cfg.epsilon.isLit = true) :
    ∀ (t1 t2 : ℕ),
      (∀ (grad : List ℝ) (s : VarState),
        resourceApplyDense cfg t1 grad s = resourceApplyDense cfg t2 grad s) ∧
      (∀ (grad : List (List ℝ)) (indices : List ℕ) (s : RowState),
        resourceApplySparse cfg t1 grad indices s =
          resourceApplySparse cfg t2 grad indices s) := by
  have hres : ∀ (x : HyperValue), x.isLit = true →
      ∀ (u1 u2 : ℕ), resolveHyper x u1 = resolveHyper x u2 := by
    intro x hx u1 u2
    cases x with
    | lit v => rfl
    | dyn f => simp [HyperValue.isLit] at hx
  intro t1 t2
  constructor
  · intro grad s
    simp only [resourceApplyDense]
    rw [hres _ h1 t1 t2, hres _ h2 t1 t2, hres _ h3 t1 t2, hres _ h4 t1 t2]
  · intro grad indices s
    simp only [resourceApplySparse]
    rw [hres _ h1 t1 t2, hres _ h2 t1 t2, hres _ h3 t1 t2, hres _ h4 t1 t2]

/-- Witness for C10: an all-literal configuration resolved at steps 0
and 1 gives identical dense and sparse updates. -/
theorem literal_hypers_deterministic_witness :
    (∀ (grad : List ℝ) (s : VarState),
      resourceApplyDense ⟨.lit 1, .lit 1, .lit 0, .lit 1, false, false⟩
          0 grad s =
        resourceApplyDense ⟨.lit 1, .lit 1, .lit 0, .lit 1, false, false⟩
          1 grad s) ∧
    (∀ (grad : List (List ℝ)) (indices : List ℕ) (s : RowState),
      resourceApplySparse ⟨.lit 1, .lit 1, .lit 0, .lit 1, false, false⟩
          0 grad indices s =
        resourceApplySparse ⟨.lit 1, .lit 1, .lit 0, .lit 1, false, false⟩
          1 grad indices s) :=
  literal_hypers_deterministic ⟨.lit 1, .lit 1, .lit 0, .lit 1, false, false⟩
    rfl rfl rfl rfl 0 1

end RMSProp
